import Mathlib

/-!
# Cart service: `week5-assignment/main.go`

A shallow embedding of the product catalog, the cart and the `addToCart`
handler, followed by the properties of the cart-mutation logic.

Modelling conventions.

* Go `int` is the 64-bit two's-complement integer of the usual targets
  (amd64, arm64). Values are carried as `Int`; the one arithmetic operation
  the handler performs on them, `cart[i].Quantity += req.Quantity`, wraps
  around, which `wrapInt` makes explicit.
* A `float64` price is carried as the rational number it denotes. The two
  float64 operations of the handler, the conversion `float64(n)` and the
  product `a * b`, round their exact result to the nearest float64, a tie
  going to the even significand (`roundFloat64`, 53 significant bits, quantum
  `2^-1074` below `2^-1022`). Infinities and NaN are not carried: with the
  seeded catalog and Go `int` quantities every product is below `2^78` in
  magnitude.
* The two package-level variables `products` and `cart` form the `Store`
  that every handler receives and returns.
* A handler's `c.JSON(status, body)` is the `Response` it returns. The
  decoding step `ShouldBindJSON` belongs to the framework: the model starts
  from a decoded request.
-/

namespace Cart

/-- Go struct `Product`. -/
structure Product where
  ID : Int
  Name : String
  Price : ℚ
  Stock : Int
  deriving DecidableEq

/-- Go struct `CartItem`. -/
structure CartItem where
  ProductID : Int
  Name : String
  Quantity : Int
  Price : ℚ
  deriving DecidableEq

/-- The anonymous request struct decoded by `addToCart`. -/
structure Req where
  ProductID : Int
  Quantity : Int
  deriving DecidableEq

/-- The package-level variables `products` and `cart`. -/
structure Store where
  products : List Product
  cart : List CartItem
  deriving DecidableEq

/-- What a handler hands to `c.JSON`: the status code, the `message` field and,
when the body has one, the `cart` field. -/
structure Response where
  status : Nat
  message : String
  cart : Option (List CartItem)
  deriving DecidableEq

/-- Smallest value of a 64-bit Go `int`. -/
def minInt : Int := -9223372036854775808

/-- Largest value of a 64-bit Go `int`. -/
def maxInt : Int := 9223372036854775807

/-- Membership in the range of a 64-bit Go `int`. -/
def isGoInt (x : Int) : Prop := minInt ≤ x ∧ x ≤ maxInt

instance (x : Int) : Decidable (isGoInt x) := by
  unfold isGoInt; infer_instance

/-- Two's-complement wrap-around of an integer result into 64 bits. -/
def wrapInt (x : Int) : Int := (x + 9223372036854775808) % 18446744073709551616 - 9223372036854775808

/-- Rounding of a rational to the nearest integer, a tie going to the even one. -/
def roundHalfEven (y : ℚ) : Int :=
  if y - ⌊y⌋ < 1 / 2 then ⌊y⌋
  else if 1 / 2 < y - ⌊y⌋ then ⌊y⌋ + 1
  else if ⌊y⌋ % 2 = 0 then ⌊y⌋ else ⌊y⌋ + 1

/-- Exponent of the last significand bit of the float64 nearest to `x`: 52 below
the exponent of the leading bit, and `-1074` throughout the subnormal range. -/
def ulpExponent (x : ℚ) : Int := max (Int.log 2 |x|) (-1022) - 52

/-- The float64 nearest to the real number `x` (round to nearest, ties to even). -/
def roundFloat64 (x : ℚ) : ℚ :=
  if x = 0 then 0 else (roundHalfEven (x / 2 ^ ulpExponent x) : ℚ) * 2 ^ ulpExponent x

/-- Go conversion `float64(n)` of an `int`. -/
def float64OfInt (n : Int) : ℚ := roundFloat64 (n : ℚ)

/-- Go product `a * b` of two `float64`s. -/
def mulFloat64 (a b : ℚ) : ℚ := roundFloat64 (a * b)

/-- Initial value of the variable `products`. -/
def products : List Product :=
  [ { ID := 1, Name := "Laptop", Price := 25000, Stock := 5 },
    { ID := 2, Name := "Headphones", Price := 1500, Stock := 10 },
    { ID := 3, Name := "Mouse", Price := 700, Stock := 15 } ]

/-- Initial value of the variable `cart`. -/
def cart : List CartItem :=
  [ { ProductID := 2, Name := "Headphones", Quantity := 1, Price := 1500 },
    { ProductID := 3, Name := "Mouse", Quantity := 2, Price := 1400 } ]

/-- The store at process start. -/
def seed : Store := { products := products, cart := cart }

/-- Handler `getProducts`: answers 200 with the catalog. -/
def getProducts (s : Store) : List Product := s.products

/-- Handler `getCart`: answers 200 with the cart. -/
def getCart (s : Store) : List CartItem := s.cart

/-- The inner loop of `addToCart` (`for i, item := range cart`): the first line
whose product ID is `p.ID` gets its quantity incremented and its price
recomputed from `p.Price`; `none` when the loop ends without a match. -/
def updateLine (p : Product) (quantity : Int) : List CartItem → Option (List CartItem)
  | [] => none
  | item :: rest =>
    if item.ProductID = p.ID then
      some ({ item with
                Quantity := wrapInt (item.Quantity + quantity),
                Price := mulFloat64 (float64OfInt (wrapInt (item.Quantity + quantity))) p.Price }
            :: rest)
    else
      (updateLine p quantity rest).map (fun done => item :: done)

/-- The outer loop of `addToCart` (`for _, p := range products`) over the
products still to visit, with the whole store at hand. -/
def scanProducts (s : Store) (req : Req) : List Product → Store × Response
  | [] => (s, { status := 404, message := "Product not found", cart := none })
  | p :: ps =>
    if p.ID = req.ProductID then
      match updateLine p req.Quantity s.cart with
      | some updated =>
        ({ s with cart := updated },
         { status := 200, message := "Updated cart", cart := some updated })
      | none =>
        let appended := s.cart ++
          [{ ProductID := p.ID, Name := p.Name, Quantity := req.Quantity,
             Price := mulFloat64 (float64OfInt req.Quantity) p.Price }]
        ({ s with cart := appended },
         { status := 200, message := "Added to cart", cart := some appended })
    else
      scanProducts s req ps

/-- Handler `addToCart`, from the decoded request on. -/
def addToCart (s : Store) (req : Req) : Store × Response :=
  if req.Quantity ≤ 0 then
    (s, { status := 400, message := "Quantity must be greater than 0", cart := none })
  else
    scanProducts s req s.products

/-- A session: the requests served one after the other, from store `s`. -/
def run (s : Store) : List Req → Store
  | [] => s
  | req :: rest => run (addToCart s req).1 rest

/-- Failure `InvalidQuantity`: status 400 with the quantity message. -/
def invalidQuantity : Response :=
  { status := 400, message := "Quantity must be greater than 0", cart := none }

/-- Failure `ProductNotFound`: status 404. -/
def productNotFound : Response :=
  { status := 404, message := "Product not found", cart := none }

/-- Success with outcome `Updated`, carrying the whole cart. -/
def updatedCart (c : List CartItem) : Response :=
  { status := 200, message := "Updated cart", cart := some c }

/-- Success with outcome `Added`, carrying the whole cart. -/
def addedToCart (c : List CartItem) : Response :=
  { status := 200, message := "Added to cart", cart := some c }

/-- The line that `addToCart` writes over an existing one. -/
def updatedItem (p : Product) (q : Int) (item : CartItem) : CartItem :=
  { item with
      Quantity := wrapInt (item.Quantity + q),
      Price := mulFloat64 (float64OfInt (wrapInt (item.Quantity + q))) p.Price }

/-- The line that `addToCart` appends for a product without one. -/
def newItem (p : Product) (q : Int) : CartItem :=
  { ProductID := p.ID, Name := p.Name, Quantity := q,
    Price := mulFloat64 (float64OfInt q) p.Price }

/-- The price of a line is the float64 product of its quantity, converted to
float64, and the unit price of its catalog product. -/
def PriceOK (c : List CartItem) : Prop :=
  ∀ l ∈ c, ∃ p ∈ products, p.ID = l.ProductID ∧
    l.Price = mulFloat64 (float64OfInt l.Quantity) p.Price

/-! ## Arithmetic of the wrap-around -/

theorem wrapInt_of_isGoInt {x : Int} (h : isGoInt x) : wrapInt x = x := by
  unfold isGoInt minInt maxInt at h
  unfold wrapInt
  omega

theorem isGoInt_wrapInt (x : Int) : isGoInt (wrapInt x) := by
  unfold isGoInt minInt maxInt wrapInt
  omega

theorem wrapInt_wrapInt_add (a b : Int) : wrapInt (wrapInt a + b) = wrapInt (a + b) := by
  unfold wrapInt
  omega

/-! ## Float64 rounding -/

theorem log_eq_of_bounds (x : ℚ) (e : Int) (h1 : (2 : ℚ) ^ e ≤ |x|) (h2 : |x| < (2 : ℚ) ^ (e + 1)) :
    Int.log 2 |x| = e := by
  have hpos : 0 < |x| := lt_of_lt_of_le (by positivity) h1
  have a : e ≤ Int.log 2 |x| := by
    rw [← Int.zpow_le_iff_le_log (by norm_num) hpos]
    simpa using h1
  have b : Int.log 2 |x| < e + 1 := by
    rw [← Int.lt_zpow_iff_log_lt (by norm_num) hpos]
    simpa using h2
  omega


theorem roundHalfEven_intCast (z : Int) : roundHalfEven (z : ℚ) = z := by
  simp [roundHalfEven]

theorem roundHalfEven_eval (y : ℚ) (f : Int) (hf : (f : ℚ) ≤ y) (hf' : y < f + 1) :
    roundHalfEven y =
      if y - f < 1 / 2 then f else if 1 / 2 < y - f then f + 1
      else if f % 2 = 0 then f else f + 1 := by
  have h : ⌊y⌋ = f := Int.floor_eq_iff.2 ⟨hf, hf'⟩
  simp only [roundHalfEven, h]

theorem roundFloat64_eval (x : ℚ) (e f : Int) (he : -1022 ≤ e)
    (h1 : (2 : ℚ) ^ e ≤ |x|) (h2 : |x| < (2 : ℚ) ^ (e + 1))
    (hf : (f : ℚ) ≤ x / 2 ^ (e - 52)) (hf' : x / 2 ^ (e - 52) < f + 1) :
    roundFloat64 x =
      ((if x / 2 ^ (e - 52) - f < 1 / 2 then f else if 1 / 2 < x / 2 ^ (e - 52) - f then f + 1
        else if f % 2 = 0 then f else f + 1 : Int) : ℚ) * 2 ^ (e - 52) := by
  have hx : x ≠ 0 := by
    intro h0
    rw [h0, abs_zero] at h1
    exact absurd h1 (not_le.2 (by positivity))
  have hu : ulpExponent x = e - 52 := by
    unfold ulpExponent
    rw [log_eq_of_bounds x e h1 h2, max_eq_left he]
  simp only [roundFloat64, hx, if_false, hu]
  rw [roundHalfEven_eval _ f hf hf']

theorem roundFloat64_exact (m k : Int) (hm : |m| < 9007199254740992) (hk : -1074 ≤ k) :
    roundFloat64 ((m : ℚ) * 2 ^ k) = (m : ℚ) * 2 ^ k := by
  by_cases h0 : m = 0
  · simp [h0, roundFloat64]
  have h2k : (0 : ℚ) < 2 ^ k := by positivity
  have hx : (m : ℚ) * 2 ^ k ≠ 0 := by
    have : (m : ℚ) ≠ 0 := by exact_mod_cast h0
    exact mul_ne_zero this (ne_of_gt h2k)
  have hpos : 0 < |(m : ℚ) * 2 ^ k| := abs_pos.2 hx
  have hlt : |(m : ℚ) * 2 ^ k| < ((2 : ℕ) : ℚ) ^ (53 + k) := by
    rw [abs_mul, abs_of_pos h2k, zpow_add₀ (by norm_num)]
    have : |(m : ℚ)| < 9007199254740992 := by exact_mod_cast hm
    have h53 : (((2 : ℕ) : ℚ)) ^ (53 : Int) = 9007199254740992 := by norm_num
    rw [h53]
    push_cast
    exact mul_lt_mul_of_pos_right this h2k
  have hlog : Int.log 2 |(m : ℚ) * 2 ^ k| < 53 + k :=
    (Int.lt_zpow_iff_log_lt (by norm_num) hpos).1 hlt
  have hE : ulpExponent ((m : ℚ) * 2 ^ k) ≤ k := by
    unfold ulpExponent
    rcases max_cases (Int.log 2 |(m : ℚ) * 2 ^ k|) (-1022) with ⟨h, _⟩ | ⟨h, _⟩ <;> rw [h] <;> omega
  obtain ⟨E, hEdef⟩ : ∃ E, E = ulpExponent ((m : ℚ) * 2 ^ k) := ⟨_, rfl⟩
  rw [← hEdef] at hE
  obtain ⟨d, hd⟩ : ∃ d : ℕ, k = E + d := ⟨(k - E).toNat, by omega⟩
  have hE0 : (2 : ℚ) ^ E ≠ 0 := by positivity
  have hpow : (2 : ℚ) ^ k = 2 ^ E * 2 ^ d := by
    rw [← zpow_natCast, ← zpow_add₀ (by norm_num), ← hd]
  have hdiv : (m : ℚ) * 2 ^ k / 2 ^ E = ((m * 2 ^ d : Int) : ℚ) := by
    rw [hpow]
    push_cast
    field_simp
    ring
  simp only [roundFloat64, hx, if_false, ← hEdef]
  rw [hdiv, roundHalfEven_intCast, hpow]
  push_cast
  ring

theorem roundFloat64_intCast (z : Int) (hz : |z| ≤ 9007199254740992) :
    roundFloat64 (z : ℚ) = z := by
  by_cases h : |z| < 9007199254740992
  · have := roundFloat64_exact z 0 h (by norm_num)
    simpa using this
  · have hz' : |z| = 9007199254740992 := le_antisymm hz (not_lt.1 h)
    rcases abs_eq (by norm_num : (0 : Int) ≤ 9007199254740992) |>.1 hz' with rfl | rfl
    · have := roundFloat64_exact 1 53 (by norm_num) (by norm_num)
      norm_num at this ⊢
      exact this
    · have := roundFloat64_exact (-1) 53 (by norm_num) (by norm_num)
      norm_num at this ⊢
      exact this

theorem mulFloat64_ofInt_exact (q P : Int) (hq : |q| ≤ 9007199254740992)
    (hqP : |q * P| ≤ 9007199254740992) :
    mulFloat64 (float64OfInt q) (P : ℚ) = ((q * P : Int) : ℚ) := by
  unfold mulFloat64 float64OfInt
  rw [roundFloat64_intCast q hq, ← Int.cast_mul, roundFloat64_intCast _ hqP]

/-- In the seeded catalog every unit price is a whole number of at least one. -/
theorem catalog_price (p : Product) (hp : p ∈ products) :
    ∃ P : Int, 1 ≤ P ∧ p.Price = (P : ℚ) := by
  simp only [products, List.mem_cons, List.mem_singleton, List.not_mem_nil, or_false] at hp
  rcases hp with rfl | rfl | rfl
  · exact ⟨25000, by norm_num, by norm_num⟩
  · exact ⟨1500, by norm_num, by norm_num⟩
  · exact ⟨700, by norm_num, by norm_num⟩

/-- With a catalog price the float64 product is the exact one as long as the
exact one is at most `2^53` in magnitude. -/
theorem mulFloat64_catalog_exact (p : Product) (hp : p ∈ products) (q : Int)
    (h : |(q : ℚ) * p.Price| ≤ 9007199254740992) :
    mulFloat64 (float64OfInt q) p.Price = (q : ℚ) * p.Price := by
  obtain ⟨P, hP, hprice⟩ := catalog_price p hp
  rw [hprice] at h ⊢
  have hz : |q * P| ≤ 9007199254740992 := by exact_mod_cast h
  have hq : |q| ≤ 9007199254740992 := by
    have h1 : |q| * 1 ≤ |q| * |P| :=
      mul_le_mul_of_nonneg_left (by rw [abs_of_pos (by omega : 0 < P)]; exact hP) (abs_nonneg q)
    rw [abs_mul] at hz
    omega
  rw [mulFloat64_ofInt_exact q P hq hz]
  push_cast
  rfl

theorem mulFloat64_catalog_exact_of_nonneg (p : Product) (hp : p ∈ products) (q : Int)
    (hq : 0 ≤ q) (h : (q : ℚ) * p.Price ≤ 9007199254740992) :
    mulFloat64 (float64OfInt q) p.Price = (q : ℚ) * p.Price := by
  apply mulFloat64_catalog_exact p hp q
  obtain ⟨P, hP, hprice⟩ := catalog_price p hp
  have h0 : (0 : ℚ) ≤ (q : ℚ) * p.Price := by
    rw [hprice]
    have : (0 : Int) ≤ q * P := mul_nonneg hq (by omega)
    exact_mod_cast this
  rw [abs_of_nonneg h0]
  exact h

/-! ## Float64 products at concrete quantities -/

theorem mulFloat64_1_1500 : mulFloat64 (float64OfInt 1) 1500 = 1500 := by
  have := mulFloat64_ofInt_exact 1 1500 (by norm_num) (by norm_num)
  norm_num at this ⊢
  exact this

theorem mulFloat64_2_700 : mulFloat64 (float64OfInt 2) 700 = 1400 := by
  have := mulFloat64_ofInt_exact 2 700 (by norm_num) (by norm_num)
  norm_num at this ⊢
  exact this

theorem mulFloat64_2_1500 : mulFloat64 (float64OfInt 2) 1500 = 3000 := by
  have := mulFloat64_ofInt_exact 2 1500 (by norm_num) (by norm_num)
  norm_num at this ⊢
  exact this

theorem mulFloat64_3_25000 : mulFloat64 (float64OfInt 3) 25000 = 75000 := by
  have := mulFloat64_ofInt_exact 3 25000 (by norm_num) (by norm_num)
  norm_num at this ⊢
  exact this

theorem mulFloat64_minInt_1500 :
    mulFloat64 (float64OfInt (-9223372036854775808)) 1500 = -13835058055282163712000 := by
  have h1 := roundFloat64_exact (-1) 63 (by norm_num) (by norm_num)
  have h2 := roundFloat64_exact (-375) 65 (by norm_num) (by norm_num)
  norm_num at h1 h2
  unfold mulFloat64 float64OfInt
  norm_num
  rw [h1]
  norm_num
  exact h2

theorem mulFloat64_minInt_25000 :
    mulFloat64 (float64OfInt (-9223372036854775808)) 25000 = -230584300921369395200000 := by
  have h1 := roundFloat64_exact (-1) 63 (by norm_num) (by norm_num)
  have h2 := roundFloat64_exact (-3125) 66 (by norm_num) (by norm_num)
  norm_num at h1 h2
  unfold mulFloat64 float64OfInt
  norm_num
  rw [h1]
  norm_num
  exact h2

/-- The product `9007199254740991 × 700` is not a float64: it is rounded. -/
theorem mulFloat64_rounded_700 :
    mulFloat64 (float64OfInt 9007199254740991) 700 = 6305039478318693376 := by
  have h1 := roundFloat64_intCast 9007199254740991 (by norm_num)
  unfold mulFloat64 float64OfInt
  rw [h1]
  rw [roundFloat64_eval _ 62 6157265115545599 (by norm_num) (by norm_num) (by norm_num)
    (by norm_num) (by norm_num)]
  norm_num

/-- The quantity `2^53 + 1` is not a float64: the conversion is a tie, resolved
to `2^53`. -/
theorem float64OfInt_rounded : float64OfInt 9007199254740993 = 9007199254740992 := by
  unfold float64OfInt
  rw [roundFloat64_eval _ 53 4503599627370496 (by norm_num) (by norm_num) (by norm_num)
    (by norm_num) (by norm_num)]
  norm_num

theorem mulFloat64_rounded_25000 :
    mulFloat64 (float64OfInt 9007199254740993) 25000 = 225179981368524800000 := by
  have h2 := roundFloat64_exact 25000 53 (by norm_num) (by norm_num)
  norm_num at h2
  unfold mulFloat64
  rw [float64OfInt_rounded]
  norm_num
  exact h2

/-! ## The inner loop -/

theorem updateLine_eq_none {p : Product} {q : Int} {c : List CartItem}
    (h : ∀ l ∈ c, l.ProductID ≠ p.ID) : updateLine p q c = none := by
  induction c with
  | nil => rfl
  | cons item rest ih =>
    have h1 : item.ProductID ≠ p.ID := h item (List.mem_cons_self _ _)
    have h2 : ∀ l ∈ rest, l.ProductID ≠ p.ID := fun l hl => h l (List.mem_cons_of_mem _ hl)
    simp [updateLine, h1, ih h2]

theorem updateLine_split (p : Product) (q : Int) (pre post : List CartItem) (item : CartItem)
    (hpre : ∀ l ∈ pre, l.ProductID ≠ p.ID) (hitem : item.ProductID = p.ID) :
    updateLine p q (pre ++ item :: post) =
      some (pre ++ { item with
                      Quantity := wrapInt (item.Quantity + q),
                      Price := mulFloat64 (float64OfInt (wrapInt (item.Quantity + q))) p.Price }
                    :: post) := by
  induction pre with
  | nil => simp [updateLine, hitem]
  | cons x xs ih =>
    have h1 : x.ProductID ≠ p.ID := hpre x (List.mem_cons_self _ _)
    have h2 : ∀ l ∈ xs, l.ProductID ≠ p.ID := fun l hl => hpre l (List.mem_cons_of_mem _ hl)
    simp [updateLine, h1, ih h2]

/-- Every cart either has no line for the product or splits at its first one. -/
theorem cart_cases (pid : Int) (c : List CartItem) :
    (∀ l ∈ c, l.ProductID ≠ pid) ∨
    ∃ pre item post, c = pre ++ item :: post ∧ (∀ l ∈ pre, l.ProductID ≠ pid) ∧
      item.ProductID = pid := by
  induction c with
  | nil => left; simp
  | cons x xs ih =>
    by_cases hx : x.ProductID = pid
    · right; exact ⟨[], x, xs, rfl, by simp, hx⟩
    · rcases ih with h | ⟨pre, item, post, rfl, hpre, hitem⟩
      · left
        intro l hl
        rcases List.mem_cons.1 hl with rfl | hl
        · exact hx
        · exact h l hl
      · right
        refine ⟨x :: pre, item, post, rfl, ?_, hitem⟩
        intro l hl
        rcases List.mem_cons.1 hl with rfl | hl
        · exact hx
        · exact hpre l hl

/-! ## The outer loop -/

theorem scanProducts_notFound (s : Store) (req : Req) (ps : List Product)
    (h : ∀ p ∈ ps, p.ID ≠ req.ProductID) :
    scanProducts s req ps = (s, productNotFound) := by
  induction ps with
  | nil => rfl
  | cons p ps ih =>
    have h1 : p.ID ≠ req.ProductID := h p (List.mem_cons_self _ _)
    have h2 : ∀ p ∈ ps, p.ID ≠ req.ProductID := fun x hx => h x (List.mem_cons_of_mem _ hx)
    simp [scanProducts, h1, ih h2]

/-- The outer loop stops at the first product with the requested ID. -/
theorem scanProducts_split (s : Store) (req : Req) (before after : List Product) (p : Product)
    (hb : ∀ x ∈ before, x.ID ≠ req.ProductID) (hp : p.ID = req.ProductID) :
    scanProducts s req (before ++ p :: after) = scanProducts s req [p] := by
  induction before with
  | nil => simp [scanProducts, hp]
  | cons x xs ih =>
    have h1 : x.ID ≠ req.ProductID := hb x (List.mem_cons_self _ _)
    have h2 : ∀ y ∈ xs, y.ID ≠ req.ProductID := fun y hy => hb y (List.mem_cons_of_mem _ hy)
    simp only [List.cons_append, scanProducts, h1, if_false]
    exact ih h2

/-- In the seeded catalog the scan for a catalog product's ID stops at that product. -/
theorem scanProducts_catalog (s : Store) (p : Product) (q : Int) (hp : p ∈ products) :
    scanProducts s ⟨p.ID, q⟩ products = scanProducts s ⟨p.ID, q⟩ [p] := by
  simp only [products, List.mem_cons, List.mem_singleton, List.not_mem_nil, or_false] at hp
  rcases hp with rfl | rfl | rfl <;> simp [products, scanProducts]

/-! ## One call of the handler, case by case -/

theorem addToCart_invalid (s : Store) (req : Req) (hq : req.Quantity ≤ 0) :
    addToCart s req = (s, invalidQuantity) := by
  simp [addToCart, hq, invalidQuantity]

theorem addToCart_notFound (s : Store) (req : Req) (hq : 0 < req.Quantity)
    (h : ∀ p ∈ s.products, p.ID ≠ req.ProductID) :
    addToCart s req = (s, productNotFound) := by
  have hq' : ¬ req.Quantity ≤ 0 := not_le.2 hq
  simp only [addToCart, hq', if_false]
  exact scanProducts_notFound s req s.products h

theorem addToCart_update (c pre post : List CartItem) (item : CartItem) (p : Product) (q : Int)
    (hq : 0 < q) (hp : p ∈ products) (hc : c = pre ++ item :: post)
    (hpre : ∀ l ∈ pre, l.ProductID ≠ p.ID) (hitem : item.ProductID = p.ID) :
    addToCart ⟨products, c⟩ ⟨p.ID, q⟩ =
      (⟨products, pre ++ updatedItem p q item :: post⟩,
       updatedCart (pre ++ updatedItem p q item :: post)) := by
  have hq' : ¬ q ≤ 0 := not_le.2 hq
  simp only [addToCart, hq', if_false]
  rw [scanProducts_catalog _ p q hp]
  subst hc
  simp [scanProducts, updateLine_split p q pre post item hpre hitem, updatedItem, updatedCart]

theorem addToCart_append (c : List CartItem) (p : Product) (q : Int)
    (hq : 0 < q) (hp : p ∈ products) (hc : ∀ l ∈ c, l.ProductID ≠ p.ID) :
    addToCart ⟨products, c⟩ ⟨p.ID, q⟩ =
      (⟨products, c ++ [newItem p q]⟩, addedToCart (c ++ [newItem p q])) := by
  have hq' : ¬ q ≤ 0 := not_le.2 hq
  simp only [addToCart, hq', if_false]
  rw [scanProducts_catalog _ p q hp]
  simp [scanProducts, updateLine_eq_none hc, newItem, addedToCart]

/-- The four ways a call on a store with the seeded catalog can go. -/
theorem addToCart_cases (c : List CartItem) (req : Req) :
    addToCart ⟨products, c⟩ req = (⟨products, c⟩, invalidQuantity) ∨
    addToCart ⟨products, c⟩ req = (⟨products, c⟩, productNotFound) ∨
    (∃ p ∈ products, p.ID = req.ProductID ∧ 0 < req.Quantity ∧
      (∀ l ∈ c, l.ProductID ≠ p.ID) ∧
      addToCart ⟨products, c⟩ req =
        (⟨products, c ++ [newItem p req.Quantity]⟩,
         addedToCart (c ++ [newItem p req.Quantity]))) ∨
    (∃ p ∈ products, p.ID = req.ProductID ∧ 0 < req.Quantity ∧
      ∃ pre item post, c = pre ++ item :: post ∧ (∀ l ∈ pre, l.ProductID ≠ p.ID) ∧
        item.ProductID = p.ID ∧
        addToCart ⟨products, c⟩ req =
          (⟨products, pre ++ updatedItem p req.Quantity item :: post⟩,
           updatedCart (pre ++ updatedItem p req.Quantity item :: post))) := by
  by_cases hq : req.Quantity ≤ 0
  · exact Or.inl (addToCart_invalid _ req hq)
  · have hq' : 0 < req.Quantity := not_le.1 hq
    by_cases hid : ∃ p ∈ products, p.ID = req.ProductID
    · obtain ⟨p, hp, hpid⟩ := hid
      have hreq : req = ⟨p.ID, req.Quantity⟩ := by cases req; simp_all
      rcases cart_cases p.ID c with hnone | ⟨pre, item, post, hc, hpre, hitem⟩
      · right; right; left
        refine ⟨p, hp, hpid, hq', hnone, ?_⟩
        rw [hreq]
        exact addToCart_append c p req.Quantity hq' hp hnone
      · right; right; right
        refine ⟨p, hp, hpid, hq', pre, item, post, hc, hpre, hitem, ?_⟩
        rw [hreq]
        exact addToCart_update c pre post item p req.Quantity hq' hp hc hpre hitem
    · right; left
      apply addToCart_notFound _ req hq'
      intro p hp hpid
      exact hid ⟨p, hp, hpid⟩

theorem scanProducts_products (s : Store) (req : Req) (ps : List Product) :
    (scanProducts s req ps).1.products = s.products := by
  induction ps with
  | nil => rfl
  | cons p ps ih =>
    unfold scanProducts
    split
    · split <;> rfl
    · exact ih

theorem addToCart_products (s : Store) (req : Req) :
    (addToCart s req).1.products = s.products := by
  unfold addToCart
  split
  · rfl
  · exact scanProducts_products s req s.products

theorem run_products (s : Store) (reqs : List Req) : (run s reqs).products = s.products := by
  induction reqs generalizing s with
  | nil => rfl
  | cons req rest ih => simp [run, ih, addToCart_products]

/-- A store with the seeded catalog is its catalog and its cart. -/
theorem store_eq (s : Store) (h : s.products = products) : s = ⟨products, s.cart⟩ := by
  cases s; simp_all

/-! ## Invariants of a session -/

/-- A property of carts kept by every call is kept by every session. -/
theorem run_invariant (P : List CartItem → Prop)
    (hstep : ∀ c req, P c → P (addToCart ⟨products, c⟩ req).1.cart)
    (c : List CartItem) (h : P c) (reqs : List Req) : P (run ⟨products, c⟩ reqs).cart := by
  induction reqs generalizing c with
  | nil => exact h
  | cons req rest ih =>
    have hs : (addToCart ⟨products, c⟩ req).1 = ⟨products, (addToCart ⟨products, c⟩ req).1.cart⟩ :=
      store_eq _ (addToCart_products _ _)
    show P (run (addToCart ⟨products, c⟩ req).1 rest).cart
    rw [hs]
    exact ih _ (hstep c req h)

theorem updatedItem_productID (p : Product) (q : Int) (item : CartItem) :
    (updatedItem p q item).ProductID = item.ProductID := rfl

theorem nodup_step (c : List CartItem) (req : Req)
    (h : (c.map (fun l => l.ProductID)).Nodup) :
    ((addToCart ⟨products, c⟩ req).1.cart.map (fun l => l.ProductID)).Nodup := by
  rcases addToCart_cases c req with e | e | ⟨p, _, _, _, hnone, e⟩ |
    ⟨p, _, _, _, pre, item, post, hc, _, _, e⟩
  · rw [e]; exact h
  · rw [e]; exact h
  · rw [e]
    simp only [List.map_append, List.map_cons, List.map_nil]
    rw [List.nodup_append]
    refine ⟨h, List.nodup_singleton _, ?_⟩
    intro a ha hb
    rw [List.mem_singleton] at hb
    obtain ⟨l, hl, rfl⟩ := List.mem_map.1 ha
    exact hnone l hl hb
  · rw [e]
    subst hc
    simpa [updatedItem_productID] using h

theorem priceOK_step (c : List CartItem) (req : Req) (h : PriceOK c) :
    PriceOK (addToCart ⟨products, c⟩ req).1.cart := by
  rcases addToCart_cases c req with e | e | ⟨p, hp, _, _, _, e⟩ |
    ⟨p, hp, _, _, pre, item, post, hc, _, hitem, e⟩
  · rw [e]; exact h
  · rw [e]; exact h
  · rw [e]
    intro l hl
    rcases List.mem_append.1 hl with hl | hl
    · exact h l hl
    · rw [List.mem_singleton] at hl
      subst hl
      exact ⟨p, hp, rfl, rfl⟩
  · rw [e]
    subst hc
    intro l hl
    simp only [List.mem_append, List.mem_cons] at hl
    rcases hl with hl | rfl | hl
    · exact h l (by simp [hl])
    · exact ⟨p, hp, hitem.symm, rfl⟩
    · exact h l (by simp [hl])

theorem priceOK_seed : PriceOK cart := by
  intro l hl
  simp only [cart, List.mem_cons, List.mem_singleton, List.not_mem_nil, or_false] at hl
  rcases hl with rfl | rfl
  · exact ⟨⟨2, "Headphones", 1500, 10⟩, by simp [products], rfl, mulFloat64_1_1500.symm⟩
  · exact ⟨⟨3, "Mouse", 700, 15⟩, by simp [products], rfl, mulFloat64_2_700.symm⟩

/-! ## Evaluations on the seeded store -/

theorem run_seed_2_1 :
    run seed [⟨2, 1⟩] = ⟨products, [⟨2, "Headphones", 2, 3000⟩, ⟨3, "Mouse", 2, 1400⟩]⟩ := by
  simp [run, addToCart, scanProducts, seed, products, cart, updateLine, wrapInt]
  exact mulFloat64_2_1500

theorem addToCart_seed_1_3 :
    addToCart seed ⟨1, 3⟩ =
      (⟨products, [⟨2, "Headphones", 1, 1500⟩, ⟨3, "Mouse", 2, 1400⟩, ⟨1, "Laptop", 3, 75000⟩]⟩,
       addedToCart
        [⟨2, "Headphones", 1, 1500⟩, ⟨3, "Mouse", 2, 1400⟩, ⟨1, "Laptop", 3, 75000⟩]) := by
  simp [addToCart, scanProducts, seed, products, cart, updateLine, addedToCart]
  exact mulFloat64_3_25000

/-! ## The claims -/

/-- Claim C1: in every cart reached from the seeded store by a finite sequence of
`addToCart` calls, whatever their arguments and outcomes, no two lines have the
same product ID. -/
theorem cart_productIDs_nodup (reqs : List Req) :
    ((run seed reqs).cart.map (fun l => l.ProductID)).Nodup :=
  run_invariant (fun c => (c.map (fun l => l.ProductID)).Nodup) nodup_step cart
    (by simp [cart]) reqs

/-- Claim C2, as amended: in every cart reached from the seeded store by a finite
sequence of `addToCart` calls, the price of each line is the float64 product of
its quantity, converted to float64, and the unit price of the catalog product
with the line's product ID; that is the exact product quantity × unit price
whenever the exact product is at most `2^53 = 9007199254740992` in magnitude. -/
theorem cart_price_eq_float64_mul (reqs : List Req) (l : CartItem)
    (hl : l ∈ (run seed reqs).cart) :
    ∃ p ∈ products, p.ID = l.ProductID ∧
      l.Price = mulFloat64 (float64OfInt l.Quantity) p.Price ∧
      (|(l.Quantity : ℚ) * p.Price| ≤ 9007199254740992 →
        l.Price = (l.Quantity : ℚ) * p.Price) := by
  obtain ⟨p, hp, hid, hprice⟩ := run_invariant PriceOK priceOK_step cart priceOK_seed reqs l hl
  refine ⟨p, hp, hid, hprice, ?_⟩
  intro hsmall
  rw [hprice]
  exact mulFloat64_catalog_exact p hp l.Quantity hsmall

theorem cart_price_eq_float64_mul_witness :
    (⟨2, "Headphones", 2, 3000⟩ : CartItem) ∈ (run seed [⟨2, 1⟩]).cart ∧
    ∃ p ∈ products, p.ID = 2 ∧
      (3000 : ℚ) = mulFloat64 (float64OfInt 2) p.Price ∧
      (|((2 : Int) : ℚ) * p.Price| ≤ 9007199254740992 →
        (3000 : ℚ) = ((2 : Int) : ℚ) * p.Price) :=
  ⟨by rw [run_seed_2_1]; simp,
   cart_price_eq_float64_mul [⟨2, 1⟩] ⟨2, "Headphones", 2, 3000⟩
    (by rw [run_seed_2_1]; simp)⟩

/-- Claim C2, as stated, fails after the single request
`{product_id: 3, quantity: 9007199254740989}` served from the seeded store: the
quantity is a positive Go `int`, the line of product 3 then has quantity
`9007199254740991` and price `6305039478318693376`, which is not
`9007199254740991 × 700 = 6305039478318693700`. -/
theorem cart_price_ne_quantity_mul_unit :
    (0 < (9007199254740989 : Int) ∧ isGoInt 9007199254740989) ∧
    (run seed [⟨3, 9007199254740989⟩]).cart =
      [⟨2, "Headphones", 1, 1500⟩, ⟨3, "Mouse", 9007199254740991, 6305039478318693376⟩] ∧
    (6305039478318693376 : ℚ) ≠ ((9007199254740991 : Int) : ℚ) * 700 := by
  refine ⟨⟨by decide, by decide⟩, ?_, by norm_num⟩
  simp [run, addToCart, scanProducts, seed, products, cart, updateLine, wrapInt]
  exact mulFloat64_rounded_700

/-- Claim C3: whatever the store and the product ID, a call with a quantity of
zero or less fails with `InvalidQuantity` (status 400), never with
`ProductNotFound`, and leaves the store as it was. -/
theorem addToCart_invalidQuantity (s : Store) (req : Req) (hq : req.Quantity ≤ 0) :
    addToCart s req = (s, invalidQuantity) ∧ (addToCart s req).2 ≠ productNotFound := by
  have h := addToCart_invalid s req hq
  refine ⟨h, ?_⟩
  rw [h]
  simp [invalidQuantity, productNotFound]

theorem addToCart_invalidQuantity_witness :
    (-1 : Int) ≤ 0 ∧
    addToCart seed ⟨999, -1⟩ = (seed, invalidQuantity) ∧
    (addToCart seed ⟨999, -1⟩).2 ≠ productNotFound :=
  ⟨by decide, addToCart_invalidQuantity seed ⟨999, -1⟩ (by decide)⟩

/-- Claim C4: whatever the cart, a call with a positive quantity and a product ID
that no catalog product has fails with `ProductNotFound` (status 404) and leaves
the store as it was. -/
theorem addToCart_productNotFound (c : List CartItem) (req : Req) (hq : 0 < req.Quantity)
    (hid : ∀ p ∈ products, p.ID ≠ req.ProductID) :
    addToCart ⟨products, c⟩ req = (⟨products, c⟩, productNotFound) :=
  addToCart_notFound ⟨products, c⟩ req hq hid

theorem addToCart_productNotFound_witness :
    addToCart ⟨products, cart⟩ ⟨999, 1⟩ = (⟨products, cart⟩, productNotFound) :=
  addToCart_productNotFound cart ⟨999, 1⟩ (by decide) (by simp [products])

/-- Claim C6, as amended: whatever the cart, a call with a positive quantity `q`
for a catalog product `p` that has no line succeeds with outcome `Added`; the new
cart is the old one followed by the single line `{p.ID, p.Name, q, price}`, so
the earlier lines are unchanged and the length grows by one; the price is the
float64 product of `float64(q)` and `p.Price`, which is the exact product
`q × p.Price` whenever that is at most `2^53 = 9007199254740992`. -/
theorem addToCart_added (c : List CartItem) (p : Product) (q : Int) (hq : 0 < q)
    (hp : p ∈ products) (hnone : ∀ l ∈ c, l.ProductID ≠ p.ID) :
    addToCart ⟨products, c⟩ ⟨p.ID, q⟩ =
      (⟨products, c ++ [⟨p.ID, p.Name, q, mulFloat64 (float64OfInt q) p.Price⟩]⟩,
       addedToCart (c ++ [⟨p.ID, p.Name, q, mulFloat64 (float64OfInt q) p.Price⟩])) ∧
    (addToCart ⟨products, c⟩ ⟨p.ID, q⟩).1.cart.length = c.length + 1 ∧
    ((q : ℚ) * p.Price ≤ 9007199254740992 →
      mulFloat64 (float64OfInt q) p.Price = (q : ℚ) * p.Price) := by
  have h := addToCart_append c p q hq hp hnone
  refine ⟨h, ?_, mulFloat64_catalog_exact_of_nonneg p hp q (le_of_lt hq)⟩
  rw [h]
  simp

theorem addToCart_added_witness :
    (addToCart ⟨products, cart⟩ ⟨1, 3⟩ =
      (⟨products, cart ++ [⟨1, "Laptop", 3, mulFloat64 (float64OfInt 3) 25000⟩]⟩,
       addedToCart (cart ++ [⟨1, "Laptop", 3, mulFloat64 (float64OfInt 3) 25000⟩])) ∧
     (addToCart ⟨products, cart⟩ ⟨1, 3⟩).1.cart.length = cart.length + 1 ∧
     (((3 : Int) : ℚ) * 25000 ≤ 9007199254740992 →
       mulFloat64 (float64OfInt 3) 25000 = ((3 : Int) : ℚ) * 25000)) ∧
    ((3 : Int) : ℚ) * 25000 = 75000 :=
  ⟨addToCart_added cart ⟨1, "Laptop", 25000, 5⟩ 3 (by decide) (by simp [products])
    (by simp [cart]), by norm_num⟩

/-- Claim C6, as stated, fails on the seeded store for product 1 and the positive
Go `int` `q = 9007199254740993`: the call is answered `Added to cart` and the
appended line has price `225179981368524800000`, which is not
`9007199254740993 × 25000 = 225179981368524825000`. -/
theorem addToCart_added_price_ne :
    (0 < (9007199254740993 : Int) ∧ isGoInt 9007199254740993) ∧
    addToCart seed ⟨1, 9007199254740993⟩ =
      (⟨products, [⟨2, "Headphones", 1, 1500⟩, ⟨3, "Mouse", 2, 1400⟩,
          ⟨1, "Laptop", 9007199254740993, 225179981368524800000⟩]⟩,
       addedToCart [⟨2, "Headphones", 1, 1500⟩, ⟨3, "Mouse", 2, 1400⟩,
          ⟨1, "Laptop", 9007199254740993, 225179981368524800000⟩]) ∧
    (225179981368524800000 : ℚ) ≠ ((9007199254740993 : Int) : ℚ) * 25000 := by
  refine ⟨⟨by decide, by decide⟩, ?_, by norm_num⟩
  simp [addToCart, scanProducts, seed, products, cart, updateLine, addedToCart]
  exact mulFloat64_rounded_25000

/-- Claim C8: after any finite sequence of `addToCart` calls from the seeded store,
whatever their arguments and outcomes, `getProducts` still answers with the three
seeded products, in seed order, every field including the stock unchanged. -/
theorem getProducts_run_seed (reqs : List Req) :
    getProducts (run seed reqs) =
      [⟨1, "Laptop", 25000, 5⟩, ⟨2, "Headphones", 1500, 10⟩, ⟨3, "Mouse", 700, 15⟩] :=
  run_products seed reqs

/-! ## Updating a line: the sum of two Go `int`s -/

/-- The update case as far as the new quantity fits a Go `int`: the first line for
`p` keeps its index, product ID and name, its quantity becomes the old one plus
`q`, its price the float64 product of that sum and `p.Price`; the other lines
stay as they were. -/
theorem addToCart_updated_of_fits (pre post : List CartItem) (item : CartItem) (p : Product)
    (q : Int) (hq : 0 < q) (hp : p ∈ products)
    (hpre : ∀ l ∈ pre, l.ProductID ≠ p.ID) (hitem : item.ProductID = p.ID)
    (hfit : isGoInt (item.Quantity + q)) :
    addToCart ⟨products, pre ++ item :: post⟩ ⟨p.ID, q⟩ =
      (⟨products, pre ++ ⟨item.ProductID, item.Name, item.Quantity + q,
          mulFloat64 (float64OfInt (item.Quantity + q)) p.Price⟩ :: post⟩,
       updatedCart (pre ++ ⟨item.ProductID, item.Name, item.Quantity + q,
          mulFloat64 (float64OfInt (item.Quantity + q)) p.Price⟩ :: post)) := by
  rw [addToCart_update _ pre post item p q hq hp rfl hpre hitem]
  simp [updatedItem, wrapInt_of_isGoInt hfit]

theorem addToCart_updated_of_fits_witness :
    addToCart ⟨products, [] ++ ⟨2, "Headphones", 1, 1500⟩ :: [⟨3, "Mouse", 2, 1400⟩]⟩ ⟨2, 1⟩ =
      (⟨products, [] ++ ⟨2, "Headphones", 1 + 1, mulFloat64 (float64OfInt (1 + 1)) 1500⟩ ::
          [⟨3, "Mouse", 2, 1400⟩]⟩,
       updatedCart ([] ++ ⟨2, "Headphones", 1 + 1, mulFloat64 (float64OfInt (1 + 1)) 1500⟩ ::
          [⟨3, "Mouse", 2, 1400⟩])) :=
  addToCart_updated_of_fits [] [⟨3, "Mouse", 2, 1400⟩] ⟨2, "Headphones", 1, 1500⟩
    ⟨2, "Headphones", 1500, 10⟩ 1 (by decide) (by simp [products]) (by simp) rfl (by decide)

/-- Claim C5, the code at the failing input: on the seeded store the request
`{product_id: 2, quantity: 9223372036854775807}`, a positive Go `int` for a catalog
product with a line of quantity 1, is answered `Updated cart`, and the line's
quantity is then `-9223372036854775808`, not `1 + 9223372036854775807`. -/
theorem addToCart_updated_overflow :
    (0 < (9223372036854775807 : Int) ∧ isGoInt 9223372036854775807) ∧
    addToCart seed ⟨2, 9223372036854775807⟩ =
      (⟨products, [⟨2, "Headphones", -9223372036854775808, -13835058055282163712000⟩,
          ⟨3, "Mouse", 2, 1400⟩]⟩,
       updatedCart [⟨2, "Headphones", -9223372036854775808, -13835058055282163712000⟩,
          ⟨3, "Mouse", 2, 1400⟩]) ∧
    (1 : Int) + 9223372036854775807 ≠ -9223372036854775808 := by
  refine ⟨⟨by decide, by decide⟩, ?_, by decide⟩
  simp [addToCart, scanProducts, seed, products, cart, updateLine, wrapInt, updatedCart]
  exact mulFloat64_minInt_1500

/-- Claim C9, the code at the failing input: the session that serves the single
request `{product_id: 2, quantity: 9223372036854775807}` from the seeded store
ends with a cart whose first line has the quantity `-9223372036854775808`, which
is not positive. -/
theorem cart_quantity_not_positive :
    isGoInt 9223372036854775807 ∧
    (run seed [⟨2, 9223372036854775807⟩]).cart =
      [⟨2, "Headphones", -9223372036854775808, -13835058055282163712000⟩,
       ⟨3, "Mouse", 2, 1400⟩] ∧
    ¬ (0 < (-9223372036854775808 : Int)) := by
  refine ⟨by decide, ?_, by decide⟩
  simp [run, addToCart, scanProducts, seed, products, cart, updateLine, wrapInt]
  exact mulFloat64_minInt_1500

theorem updatedItem_newItem (p : Product) (q1 q2 : Int) (h : isGoInt (q1 + q2)) :
    updatedItem p q2 (newItem p q1) = newItem p (q1 + q2) := by
  simp [updatedItem, newItem, wrapInt_of_isGoInt h]

theorem updatedItem_updatedItem (p : Product) (q1 q2 : Int) (item : CartItem) :
    updatedItem p q2 (updatedItem p q1 item) = updatedItem p (q1 + q2) item := by
  simp [updatedItem, wrapInt_wrapInt_add, add_assoc]

/-- Claim C10, as amended: for every cart, every catalog product `p` and all
quantities `q1 > 0` and `q2 > 0` whose sum is still a Go `int` (at most
`9223372036854775807`), the store after `addToCart(p, q1)` followed by
`addToCart(p, q2)` is the store after the single call `addToCart(p, q1 + q2)`,
whether or not `p` had a line beforehand. -/
theorem addToCart_twice_eq_sum (c : List CartItem) (p : Product) (q1 q2 : Int)
    (h1 : 0 < q1) (h2 : 0 < q2) (hsum : q1 + q2 ≤ maxInt) (hp : p ∈ products) :
    run ⟨products, c⟩ [⟨p.ID, q1⟩, ⟨p.ID, q2⟩] = (addToCart ⟨products, c⟩ ⟨p.ID, q1 + q2⟩).1 := by
  have h12 : 0 < q1 + q2 := by omega
  have hfit : isGoInt (q1 + q2) := by
    unfold isGoInt minInt
    unfold maxInt at hsum
    constructor
    · omega
    · exact hsum
  show (addToCart (addToCart ⟨products, c⟩ ⟨p.ID, q1⟩).1 ⟨p.ID, q2⟩).1 = _
  rcases cart_cases p.ID c with hnone | ⟨pre, item, post, hc, hpre, hitem⟩
  · rw [addToCart_append c p q1 h1 hp hnone, addToCart_append c p (q1 + q2) h12 hp hnone]
    rw [addToCart_update _ c [] (newItem p q1) p q2 h2 hp rfl hnone rfl]
    simp [updatedItem_newItem p q1 q2 hfit]
  · rw [addToCart_update c pre post item p q1 h1 hp hc hpre hitem,
      addToCart_update c pre post item p (q1 + q2) h12 hp hc hpre hitem]
    rw [addToCart_update _ pre post (updatedItem p q1 item) p q2 h2 hp rfl hpre hitem]
    simp [updatedItem_updatedItem]

theorem addToCart_twice_eq_sum_witness :
    run ⟨products, cart⟩ [⟨2, 1⟩, ⟨2, 2⟩] = (addToCart ⟨products, cart⟩ ⟨2, 1 + 2⟩).1 :=
  addToCart_twice_eq_sum cart ⟨2, "Headphones", 1500, 10⟩ 1 2 (by decide) (by decide)
    (by decide) (by simp [products])

/-- Claim C10, as stated, fails on the seeded store for product 1 and
`q1 = q2 = 4611686018427387904`: both are positive Go `int`s, the two calls leave
three lines, the last with quantity `-9223372036854775808`, and no single call
gives that cart, neither with the exact sum nor with the sum as a Go `int`. -/
theorem addToCart_twice_ne_sum :
    (0 < (4611686018427387904 : Int) ∧ isGoInt 4611686018427387904) ∧
    (run seed [⟨1, 4611686018427387904⟩, ⟨1, 4611686018427387904⟩]).cart =
      [⟨2, "Headphones", 1, 1500⟩, ⟨3, "Mouse", 2, 1400⟩,
       ⟨1, "Laptop", -9223372036854775808, -230584300921369395200000⟩] ∧
    (addToCart seed ⟨1, 4611686018427387904 + 4611686018427387904⟩).1.cart ≠
      (run seed [⟨1, 4611686018427387904⟩, ⟨1, 4611686018427387904⟩]).cart ∧
    (addToCart seed ⟨1, wrapInt (4611686018427387904 + 4611686018427387904)⟩).1.cart ≠
      (run seed [⟨1, 4611686018427387904⟩, ⟨1, 4611686018427387904⟩]).cart := by
  have hrun : (run seed [⟨1, 4611686018427387904⟩, ⟨1, 4611686018427387904⟩]).cart =
      [⟨2, "Headphones", 1, 1500⟩, ⟨3, "Mouse", 2, 1400⟩,
       ⟨1, "Laptop", -9223372036854775808, -230584300921369395200000⟩] := by
    simp [run, addToCart, scanProducts, seed, products, cart, updateLine, wrapInt]
    exact mulFloat64_minInt_25000
  refine ⟨⟨by decide, by decide⟩, hrun, ?_, ?_⟩
  · rw [hrun]
    simp [addToCart, scanProducts, seed, products, cart, updateLine]
  · rw [hrun]
    simp [addToCart, scanProducts, seed, products, cart, updateLine, wrapInt]

/-! ## The quantity of a product's line along a session -/

end Cart
